import Mathlib

/-!
Verification development for the File-Converter spreadsheet transformation
engine.  The TypeScript source (the fileProcessor module) is shallowly
embedded: pure helper functions become Lean functions over `String` /
`List Char`, JS numbers appearing in the price pipeline are modelled exactly,
and the per-record row-assembly logic of `processSingleFile` is modelled as
pure functions from the header list and a record (a total map from column
name to cell text) to the list of produced output rows.

Modelling conventions:
* A JS number produced by `parseFloat` on the decimal strings this pipeline
  feeds it is represented exactly as a scaled integer `JsNum` with value
  `num / 10 ^ scale` (the rational value is `JsNum.toQ`).  Exponent notation,
  `Infinity`, and IEEE-754 rounding of extreme magnitudes are outside the
  model; no value in the transformation pipeline uses them.
* JS `parseFloat` is modelled by `parseFloatNum : String → Option JsNum`,
  which skips leading whitespace, reads an optional sign, then the longest
  decimal-literal prefix (`NaN` becomes `none`).
* JS string truthiness (`if (s)`) is `s ≠ ""`; `null`/`undefined` inputs are
  modelled with `Option` where the source accepts them.
* A data record (a `df` row object) is a total function
  `Row := String → String`; the source materialises every header key on every
  row object, defaulting missing cells to `""`.
* `String.trim` / `String.toLower` of the source are modelled by `jsTrim` /
  `lowerStr`, explicit `List Char` traversals (ASCII case folding, as all
  vocabulary compared against is ASCII).
-/

/-- Cell records: a total mapping from column name to cell text. -/
def Row : Type := String → String

/-- Model of JS `String.prototype.trim`: drop whitespace at both ends. -/
def jsTrim (s : String) : String :=
  String.mk (((s.data.dropWhile Char.isWhitespace).reverse.dropWhile Char.isWhitespace).reverse)

/-- Model of JS `toLowerCase` (ASCII range, which covers every comparison
vocabulary of the source). -/
def lowerStr (s : String) : String :=
  String.mk (s.data.map Char.toLower)

/-- Numeric value of a list of decimal digit characters (most significant first). -/
def digitsVal (l : List Char) : ℕ :=
  l.foldl (fun n c => 10 * n + (c.toNat - 48)) 0

/-- Exact model of a finite JS float arising from `parseFloat` on a decimal
literal: value `num / 10 ^ scale`. -/
structure JsNum where
  num : ℤ
  scale : ℕ
deriving DecidableEq

/-- Rational value of a `JsNum`. -/
def JsNum.toQ (d : JsNum) : ℚ := (d.num : ℚ) / (10 : ℚ) ^ d.scale

/-- Model of JS `parseFloat`: skip leading whitespace, optional sign, then the
longest prefix matching `digits [. digits]` (either digit group may be empty
but not both); `NaN` is `none`. -/
def parseFloatNum (s : String) : Option JsNum :=
  let l := s.data.dropWhile Char.isWhitespace
  let neg : Bool := match l.head? with | some '-' => true | _ => false
  let l1 := match l with
    | '-' :: t => t
    | '+' :: t => t
    | _ => l
  let ip := l1.takeWhile Char.isDigit
  let r1 := l1.dropWhile Char.isDigit
  let fp := match r1 with
    | '.' :: t => t.takeWhile Char.isDigit
    | _ => []
  if ip.isEmpty && fp.isEmpty then none
  else
    let mag : ℤ := ((digitsVal ip * 10 ^ fp.length + digitsVal fp : ℕ) : ℤ)
    some ⟨if neg then -mag else mag, fp.length⟩

/-- Source `cleanPrice` (string-input case): trim, keep only `[0-9.-]`; if the
filtered text parses to an integral float (`Number.isInteger`, here exact
divisibility), render the bare integer, else return the filtered text. -/
def cleanPrice (x : String) : String :=
  let s := jsTrim x
  if s = "" then ""
  else
    let s2 := String.mk (s.data.filter (fun c => c.isDigit || decide (c = '.') || decide (c = '-')))
    if s2 = "" then ""
    else
      match parseFloatNum s2 with
      | none => s2
      | some f =>
          if f.num % (10 ^ f.scale : ℤ) = 0 then toString (f.num / (10 ^ f.scale : ℤ))
          else s2

/-- Source `cleanPrice` including the JS `null`/`undefined` input case. -/
def cleanPriceJS : Option String → String
  | none => ""
  | some s => cleanPrice s

/-- Source `roundToNearest9`: blank input gives `""`; unparseable (`NaN`) or
non-positive input is returned unchanged; otherwise
`Math.max(0, Math.floor((p + 5) / 10) * 10 - 1)` rendered as text.  Since the
parsed value is `num / 10 ^ scale`, `Math.floor((p + 5) / 10)` is the euclidean
division `(num + 5·10^scale) / 10^(scale+1)` (divisor positive, so this is the
real floor; see `round9_div_eq_floor`). -/
def roundToNearest9 (priceStr : String) : String :=
  if priceStr = "" ∨ jsTrim priceStr = "" then ""
  else
    match parseFloatNum priceStr with
    | none => priceStr
    | some d =>
        if d.num ≤ 0 then priceStr
        else toString (max 0 ((d.num + 5 * 10 ^ d.scale) / (10 ^ (d.scale + 1) : ℤ) * 10 - 1))

/-- Is `p` a prefix of `l` (JS `String.prototype.startsWith` on char lists)? -/
def isPrefixL : List Char → List Char → Bool
  | [], _ => true
  | _ :: _, [] => false
  | a :: as, b :: bs => a = b && isPrefixL as bs

/-- Does `l` contain `p` as a contiguous infix (JS `String.prototype.includes`)? -/
def isInfixL (p : List Char) : List Char → Bool
  | [] => isPrefixL p []
  | l@(_ :: t) => isPrefixL p l || isInfixL p t

/-- JS `hay.includes(needle)`. -/
def containsStr (hay needle : String) : Bool :=
  isInfixL needle.data hay.data

/-- Source `findColByNames` normalisation: lowercase then strip everything
outside `[a-z0-9]`. -/
def normalizeColKey (s : String) : String :=
  String.mk ((lowerStr s).data.filter (fun c => (decide ('a' ≤ c) && decide (c ≤ 'z')) || c.isDigit))

/-- The `colsNorm` lookup of `findColByNames`: normalised name → original
column, later columns winning ties (the source builds a record in column
order, each assignment overwriting). -/
def lookupNormLastWins (cols : List String) (key : String) : Option String :=
  cols.foldl (fun acc c => if normalizeColKey c = key then some c else acc) none

/-- Exact phase of `findColByNames`: first candidate whose normalised form hits
the lookup (a hit whose stored column text is `""` is falsy in JS and is
skipped, as in the source). -/
def findColExact (cols : List String) : List String → Option String
  | [] => none
  | n :: ns =>
      match lookupNormLastWins cols (normalizeColKey n) with
      | some c => if c ≠ "" then some c else findColExact cols ns
      | none => findColExact cols ns

/-- Lowercase and strip whitespace (`name.toLowerCase().replace(/\s/g, "")`). -/
def stripWsLower (s : String) : String :=
  String.mk ((lowerStr s).data.filter (fun c => !c.isWhitespace))

/-- Substring fallback phase of `findColByNames`: candidates in order, then
headers in order; first header containing the whitespace-stripped lowercased
candidate wins. -/
def findColSub (cols : List String) : List String → Option String
  | [] => none
  | n :: ns =>
      match cols.find? (fun c => containsStr (stripWsLower c) (stripWsLower n)) with
      | some c => some c
      | none => findColSub cols ns

/-- Source `findColByNames`: exact normalised match first, then substring
fallback. -/
def findColByNames (cols : List String) (names : List String) : Option String :=
  match findColExact cols names with
  | some c => some c
  | none => findColSub cols names

/-- Source `detectImageColumns`: every header whose lowercased text contains
"product image", "image" or "image url" (the first and last are subsumed by
"image" but kept as written). -/
def detectImageColumns (cols : List String) : List String :=
  cols.filter (fun c =>
    containsStr (lowerStr c) "product image" || containsStr (lowerStr c) "image" ||
      containsStr (lowerStr c) "image url")

/-- The curated size vocabulary of `detectSizeColumns`. -/
def sizeCandidates : List String :=
  ["NB", "0-2M", "2-4M", "4-6M", "0-3M", "3-6M", "6-9M", "6-12M", "9-12M", "12-18M", "18-24M",
   "1-2Y", "2-3Y", "3-4Y", "4-5Y", "5-6Y", "One Size", "S", "M", "L", "XL", "XXL"]

/-- Recogniser for the fallback regex `/\d+\s*[-]?\s*\d*\s*[my]$/i` of
`detectSizeColumns`, applied to the trimmed header.  The regex is unanchored
at the start, so it matches exactly when, reading the string backwards, we see
`m`/`y`, optional whitespace, then either (a) at least one digit immediately
(which serves as the mandatory `\d+`), or (b) no digit but a `-` followed by
optional whitespace and at least one digit. -/
def sizeColFallbackMatch (s : String) : Bool :=
  match s.data.reverse with
  | [] => false
  | c :: rest =>
      if c.toLower = 'm' || c.toLower = 'y' then
        let r1 := rest.dropWhile Char.isWhitespace
        if (r1.takeWhile Char.isDigit) ≠ [] then true
        else
          match r1 with
          | '-' :: r2 => ((r2.dropWhile Char.isWhitespace).takeWhile Char.isDigit) ≠ []
          | _ => false
      else false

/-- Source `detectSizeColumns`: first every header equal (up to trim and case)
to a curated size token, in header order and without de-duplication; then
every remaining header matching the trailing `digits[-digits][m|y]` pattern,
skipping headers already collected (the JS membership test is by name, against
the growing list). -/
def detectSizeColumns (cols : List String) : List String :=
  let exact := cols.filter (fun c =>
    sizeCandidates.any (fun sc => lowerStr (jsTrim c) = lowerStr sc))
  cols.foldl (fun acc c =>
    if !acc.contains c && sizeColFallbackMatch (jsTrim c) then acc ++ [c] else acc) exact

/-- Source `normalizeSizeForMatching`: lowercase, trim, collapse whitespace,
unify en/em dashes (with surrounding spaces) to `-`, then remove spaces.
Because every whitespace run is eventually removed and every dash variant maps
to `-` with its surrounding whitespace removed, the pipeline is equivalent to
mapping dash variants to `-` and dropping all whitespace from the lowercased
trimmed text, which is how it is written here. -/
def normalizeSizeForMatching (s : String) : String :=
  if s = "" then ""
  else
    String.mk ((((lowerStr s).data.map
      (fun c => if c = '–' ∨ c = '—' then '-' else c)).filter (fun c => !c.isWhitespace)))

/-- One age-bracket row of the boy/girl tables. -/
structure AgeGroupConfig where
  tag : String
  patterns : List String

/-- Pattern test of the age-group loops: a normalised variant matches a group
when some pattern equals it, or is contained in it if the pattern has length
at least 3; empty variants are skipped. -/
def variantMatchesGroup (g : AgeGroupConfig) (v : String) : Bool :=
  v ≠ "" && g.patterns.any (fun p => p = v || (decide (3 ≤ p.length) && containsStr v p))

/-- Variants fed to the age-group matcher: drop empty and `"Default"`, then
normalise. -/
def normalizedVariantsOf (variants : List String) : List String :=
  (variants.filter (fun v => v ≠ "" && v ≠ "Default")).map normalizeSizeForMatching

/-- The group scan of `getBoyAgeGroupTags`/`getGirlAgeGroupTags`: for each
group in order, append its tag (if not already present) when some normalised
variant matches; the source's `break`s only stop scanning once the tag is
known to be in the list, so the net effect per group is exactly this. -/
def ageGroupFold (nv : List String) : List AgeGroupConfig → List String → List String
  | [], acc => acc
  | g :: gs, acc =>
      ageGroupFold nv gs
        (if nv.any (variantMatchesGroup g) then
          (if g.tag ∈ acc then acc else acc ++ [g.tag]) else acc)

/-- Boy age-bracket table (transcribed from the source). -/
def boyAgeGroups : List AgeGroupConfig :=
  [⟨"Boy 0-3m", ["nb", "0-2m", "2-4m", "0-3m", "0-6m"]⟩,
   ⟨"Boy 3-6m", ["2-4m", "4-6m", "3-6m", "0-6m"]⟩,
   ⟨"Boy 6-12m", ["6-9m", "6-12m", "9-12m", "0-12m"]⟩,
   ⟨"Boy 1-2y", ["12-18m", "15-18m", "18-24m", "18m-3y", "1-2y", "1-3y"]⟩,
   ⟨"Boy 2-3y", ["18m-3y", "1-3y", "2-3y", "2-4y", "2-2.5y", "2.5-3y"]⟩,
   ⟨"Boy 3-4y", ["2-4y", "3-4y", "3-3.5y", "3.5-4y"]⟩,
   ⟨"Boy 4-5y", ["3-4y", "4-5y", "5-6y", "5-7y", "4-4.5y", "4.5-5y"]⟩,
   ⟨"Boy 5+ y", ["5-6y", "5-7y", "6-7y", "7-8y", "5-5.5y", "5.5-6y"]⟩]

/-- Girl age-bracket table (transcribed from the source; note the extra
`"24m"` and `"13y"` patterns). -/
def girlAgeGroups : List AgeGroupConfig :=
  [⟨"Girl 0-3m", ["nb", "0-2m", "2-4m", "0-3m", "0-6m"]⟩,
   ⟨"Girl 3-6m", ["2-4m", "24m", "4-6m", "3-6m", "0-6m"]⟩,
   ⟨"Girl 6-12m", ["6-9m", "6-12m", "9-12m", "0-12m"]⟩,
   ⟨"Girl 1-2y", ["12-18m", "15-18m", "18-24m", "18m-3y", "1-2y", "1-3y"]⟩,
   ⟨"Girl 2-3y", ["18m-3y", "1-3y", "13y", "2-3y", "2-4y", "2-2.5y", "2.5-3y"]⟩,
   ⟨"Girl 3-4y", ["2-4y", "3-4y", "3-3.5y", "3.5-4y"]⟩,
   ⟨"Girl 4-5y", ["3-4y", "4-5y", "5-6y", "5-7y"]⟩,
   ⟨"Girl 5+ y", ["5-6y", "5-7y", "6-7y", "7-8y"]⟩]

/-- Source `getBoyAgeGroupTags`. -/
def getBoyAgeGroupTags (variants : List String) : List String :=
  ageGroupFold (normalizedVariantsOf variants) boyAgeGroups []

/-- Source `getGirlAgeGroupTags`. -/
def getGirlAgeGroupTags (variants : List String) : List String :=
  ageGroupFold (normalizedVariantsOf variants) girlAgeGroups []

/-- The fixed output template schema (`TEMPLATE_COLS`), transcribed in order. -/
def TEMPLATE_COLS : List String :=
  ["Title", "URL handle", "Description", "Vendor", "Product category", "Type", "Tags",
   "Published on online store", "Status", "SKU", "Barcode",
   "Option1 name", "Option1 value", "Option2 name", "Option2 value", "Option3 name", "Option3 value",
   "Price", "Compare-at price", "Cost per item", "Charge tax", "Tax code",
   "Unit price total measure", "Unit price total measure unit", "Unit price base measure",
   "Unit price base measure unit",
   "Inventory tracker", "Variant Inventory Policy", "Inventory policy",
   "Continue selling when out of stock", "Inventory quantity",
   "Weight value (grams)", "Weight unit for display", "Requires shipping", "Fulfillment service",
   "Product image URL", "Image position", "Image alt text", "Variant image URL", "Gift card",
   "SEO title", "SEO description",
   "Google Shopping / Google product category", "Google Shopping / Gender",
   "Google Shopping / Age group",
   "Google Shopping / MPN", "Google Shopping / AdWords Grouping",
   "Google Shopping / AdWords labels",
   "Google Shopping / Condition", "Google Shopping / Custom product",
   "Google Shopping / Custom label 0", "Google Shopping / Custom label 1",
   "Google Shopping / Custom label 2", "Google Shopping / Custom label 3",
   "Google Shopping / Custom label 4",
   "Fabric", "Wash Care", "Material", "Shelf", "Test",
   "Variant Image", "Variant Weight Unit", "Variant Tax Code", "Shelf No", "Sizes"]

/-- Worker for `collapseRuns`; `inRun` records whether the previous character
belonged to a run being collapsed. -/
def collapseRunsAux (p : Char → Bool) (r : Char) : Bool → List Char → List Char
  | _, [] => []
  | inRun, c :: t =>
      if p c then
        if inRun then collapseRunsAux p r true t
        else r :: collapseRunsAux p r true t
      else c :: collapseRunsAux p r false t

/-- Replace each maximal run of characters satisfying `p` by the single
character `r` (the JS `replace(/X+/g, r)` idiom). -/
def collapseRuns (p : Char → Bool) (r : Char) (l : List Char) : List Char :=
  collapseRunsAux p r false l

/-- Remove one leading and one trailing dash (`replace(/^-|-$/g, "")`). -/
def stripEdgeDash (l : List Char) : List Char :=
  let l1 := match l with
    | '-' :: t => t
    | _ => l
  match l1.reverse with
  | '-' :: t => t.reverse
  | _ => l1

/-- Source `slugify`: trim + lowercase, strip characters outside
`[a-z0-9\s-]`, collapse whitespace runs to `-`, collapse dash runs, strip one
edge dash on each side. -/
def slugify (text : String) : String :=
  let t := (lowerStr (jsTrim text)).data
  let t1 := t.filter (fun c =>
    (decide ('a' ≤ c) && decide (c ≤ 'z')) || c.isDigit || c.isWhitespace || decide (c = '-'))
  let t2 := collapseRuns Char.isWhitespace '-' t1
  let t3 := collapseRuns (fun c => decide (c = '-')) '-' t2
  String.mk (stripEdgeDash t3)

/-- Candidate lists used by `processSingleFile` for column resolution. -/
def titleNames : List String := ["Title", "Product Title", "Name"]

def brandNames : List String := ["Brand Name", "Vendor", "Brand"]

def prodcatNames : List String := ["Product category", "Category"]

def subcatNames : List String := ["Subcategory", "Sub Category", "Type"]

def subsubNames : List String := ["Sub Sub Category", "SubSubCategory"]

def seasonNames : List String := ["Season"]

def campaignNames : List String := ["Campaign"]

def sizesNames : List String := ["Sizes", "Size"]

def costNames : List String := ["Cost to Kiddo", "Cost"]

def mrpNames : List String := ["MRP"]

def finalNames : List String := ["Selling Price"]

def sizeChartNames : List String := ["Size chart", "Size Chart", "Sizechart"]

/-- The `optionalExtraCols` table: output key → source-column candidates. -/
def optionalExtraCols : List (String × List String) :=
  [("Fabric", ["Fabric", "Fabric (product.metafields.custom.fabric)"]),
   ("Wash Care", ["Wash Care", "Wash care", "Wash Care (product.metafields.custom.wash_care)"]),
   ("Material", ["Material", "Material (product.metafields.custom.material)"]),
   ("Shelf", ["Shelf", "Shelf (product.metafields.custom.shelf)"]),
   ("Test", ["Test", "Test (product.metafields.custom.test)"]),
   ("Variant Image", ["Variant Image", "Variant image"]),
   ("Variant Weight Unit", ["Variant Weight Unit", "Variant weight unit"]),
   ("Variant Tax Code", ["Variant Tax Code", "Variant tax code"]),
   ("Shelf No", ["Shelf No", "Shelf Number"]),
   ("Sizes", ["Sizes", "Size"])]

/-- Variant extraction of one record: for each detected size column (header
order, duplicates included), the trimmed column name when the cell is
non-empty, not `"0"` and not case-insensitively `"nan"`. -/
def recordVariants (cols : List String) (row : Row) : List String :=
  (detectSizeColumns cols).filterMap (fun sc =>
    if row sc ≠ "" then
      let sVal := jsTrim (row sc)
      if sVal ≠ "" ∧ sVal ≠ "0" ∧ lowerStr sVal ≠ "nan" then some (jsTrim sc) else none
    else none)

/-- Variants with the `"Default"` sentinel when no size column fires. -/
def recordVariantsD (cols : List String) (row : Row) : List String :=
  if recordVariants cols row = [] then ["Default"] else recordVariants cols row

/-- Image URLs collected from the image columns: trimmed, non-empty,
non-`"nan"`, de-duplicated by first appearance. -/
def recordImageURLs (cols : List String) (row : Row) : List String :=
  (detectImageColumns cols).foldl (fun acc ic =>
    let url := jsTrim (row ic)
    if url ≠ "" ∧ lowerStr url ≠ "nan" ∧ url ∉ acc then acc ++ [url] else acc) []

/-- The record's assembled image list: the image-column URLs, then the size
chart cell appended under the same non-empty/non-`"nan"`/not-yet-present
conditions when a size-chart column resolved. -/
def recordImages (cols : List String) (row : Row) : List String :=
  let images := recordImageURLs cols row
  match findColByNames cols sizeChartNames with
  | some scc =>
      let url := jsTrim (row scc)
      if url ≠ "" ∧ lowerStr url ≠ "nan" ∧ url ∉ images then images ++ [url] else images
  | none => images

/-- The primary product image: head of the assembled image list, `""` if none. -/
def recordPrimaryImage (cols : List String) (row : Row) : String :=
  (recordImages cols row).headD ""

/-- Cleaned selling price (`finalPrice` in the source): `""` when the column
did not resolve. -/
def sellingClean (cols : List String) (row : Row) : String :=
  match findColByNames cols finalNames with
  | some c => cleanPrice (row c)
  | none => ""

/-- Cleaned MRP (`mrpPrice`). -/
def mrpClean (cols : List String) (row : Row) : String :=
  match findColByNames cols mrpNames with
  | some c => cleanPrice (row c)
  | none => ""

/-- Cleaned cost (`costPrice`). -/
def costClean (cols : List String) (row : Row) : String :=
  match findColByNames cols costNames with
  | some c => cleanPrice (row c)
  | none => ""

/-- The `Price` cell: rounded selling price when present, else rounded cost
(`fallbackPriceToCost` is hard-coded `true`), else blank. -/
def priceField (cols : List String) (row : Row) : String :=
  if sellingClean cols row ≠ "" then roundToNearest9 (sellingClean cols row)
  else if costClean cols row ≠ "" then roundToNearest9 (costClean cols row)
  else ""

/-- Source `isValueOne`: trimmed, non-empty, non-`"nan"`, and
`parseFloat === 1.0` (see `JsNum.toQ_eq_one_iff`). -/
def isValueOne (val : String) : Bool :=
  let s := jsTrim val
  if s = "" then false
  else if lowerStr s = "nan" then false
  else
    match parseFloatNum s with
    | some d => decide (d.num = 10 ^ d.scale)
    | none => false

/-- Flag-column normalisation: strip `*`, `+` and whitespace, lowercase
(`col.replace(/[*+\s]+/g, "").toLowerCase()`). -/
def flagNorm (c : String) : String :=
  lowerStr (String.mk (c.data.filter (fun ch =>
    !(decide (ch = '*') || decide (ch = '+') || ch.isWhitespace))))

/-- Append a tag only when not already present (the guarded
`if (!tags.includes(t)) tags.push(t)` idiom). -/
def pushIfNew (tags : List String) (t : String) : List String :=
  if t ∈ tags then tags else tags ++ [t]

/-- Unconditionally push the trimmed cell of a resolved column when non-empty
and non-`"nan"` (the unguarded `tags.push(v)` steps). -/
def pushValueTag (row : Row) (c : Option String) (tags : List String) : List String :=
  match c with
  | some col =>
      let v := jsTrim (row col)
      if v ≠ "" ∧ lowerStr v ≠ "nan" then tags ++ [v] else tags
  | none => tags

/-- One step of the boolean/flag-column scan over the headers. -/
def flagStep (row : Row) (tags : List String) (col : String) : List String :=
  let colNorm := flagNorm col
  if isValueOne (row col) then
    if containsStr colNorm "girls" && containsStr colNorm "unisex" then
      pushIfNew (pushIfNew tags "Girl") "Unisex"
    else if containsStr colNorm "boys" && containsStr colNorm "unisex" then
      pushIfNew (pushIfNew tags "Boy") "Unisex"
    else if colNorm = "boy" ∨ colNorm = "boys" then pushIfNew tags "Boy"
    else if colNorm = "girl" ∨ colNorm = "girls" then pushIfNew tags "Girl"
    else if colNorm = "unisex" then pushIfNew tags "Unisex"
    else if colNorm = "nb" ∨ colNorm = "newborn" then pushIfNew tags "Newborn"
    else tags
  else tags

/-- Merge a tag list into an accumulator with the guarded push
(`ageTags.forEach(t => { if (!tags.includes(t)) tags.push(t) })`). -/
def mergeNew (tags : List String) (ts : List String) : List String :=
  ts.foldl pushIfNew tags

/-- The value-tag pushes of one record, before the flag scan: brand, product
category and subcategory values, then the configured tag columns (the
sub-sub-category column twice, then season, campaign, sizes). -/
def baseTags (cols : List String) (row : Row) : List String :=
  pushValueTag row (findColByNames cols sizesNames)
    (pushValueTag row (findColByNames cols campaignNames)
      (pushValueTag row (findColByNames cols seasonNames)
        (pushValueTag row (findColByNames cols subsubNames)
          (pushValueTag row (findColByNames cols subsubNames)
            (pushValueTag row (findColByNames cols subcatNames)
              (pushValueTag row (findColByNames cols prodcatNames)
                (pushValueTag row (findColByNames cols brandNames) [])))))))

/-- The raw tag list continued: the flag-column scan over the headers, then
the boy/girl age brackets when the respective gender tag is present. -/
def recordTagsRaw (cols : List String) (row : Row) (variants : List String) : List String :=
  let t8 := cols.foldl (flagStep row) (baseTags cols row)
  let t9 := if "Boy" ∈ t8 then mergeNew t8 (getBoyAgeGroupTags variants) else t8
  if "Girl" ∈ t9 then mergeNew t9 (getGirlAgeGroupTags variants) else t9

/-- Worker for `dedupFirst`, carrying the set of already-emitted values. -/
def dedupFirstAux (seen : List String) : List String → List String
  | [] => []
  | x :: xs =>
      if x ∈ seen then dedupFirstAux seen xs
      else x :: dedupFirstAux (seen ++ [x]) xs

/-- First-occurrence de-duplication (JS `Array.from(new Set(tags))`, insertion
order preserved). -/
def dedupFirst (l : List String) : List String :=
  dedupFirstAux [] l

/-- The record's final tag list, as joined into the `Tags` cell. -/
def recordTags (cols : List String) (row : Row) (variants : List String) : List String :=
  dedupFirst (recordTagsRaw cols row variants)

/-- The description cell: for each of the three specification-column
spellings, the resolved column's non-empty trimmed value; joined with blank
lines. -/
def descParts (cols : List String) (row : Row) : List String :=
  ["Product Specifcation", "Product Specification", "Product specification"].filterMap (fun p =>
    match findColByNames cols [p] with
    | some colName =>
        if row colName ≠ "" then
          let v := jsTrim (row colName)
          if v ≠ "" then some v else none
        else none
    | none => none)

/-- Joined description (`descParts.join("\n\n")`). -/
def recordDescription (cols : List String) (row : Row) : String :=
  String.intercalate "\n\n" (descParts cols row)

/-- One optional-extra cell: trimmed value of the first resolving candidate
column, `""` when none resolves. -/
def extraVal (cols : List String) (row : Row) (cands : List String) : String :=
  match findColByNames cols cands with
  | some sc => jsTrim (row sc)
  | none => ""

/-- The `Type` cell: subcategory value, falling back to the sub-sub-category
value when the former is falsy; `""` when no subcategory column resolved. -/
def typeField (cols : List String) (row : Row) : String :=
  match findColByNames cols subcatNames with
  | some scn =>
      if row scn ≠ "" then row scn
      else
        match findColByNames cols subsubNames with
        | some ss => row ss
        | none => ""
  | none => ""

/-- The value of a raw role column passed through unchanged (`row[col] || ""`),
`""` when the role did not resolve. -/
def roleRaw (cols : List String) (row : Row) (names : List String) : String :=
  match findColByNames cols names with
  | some c => row c
  | none => ""

/-- One assembled variant row of a record, as the final state of the `out`
object: every template key starts at `""` and the source's assignments (all
to distinct keys) produce the cell values below.  `isFirst` is true for the
first variant row; the source's `firstVariant` flag only flips when a primary
image exists, but the image cells are guarded by the same condition, so the
net effect on every row is captured by `isFirst ∧ primary ≠ ""`.  The numeric
`Image position` cell serialises as its decimal string. -/
def mkVariantRow (cols : List String) (titleCol : String) (row : Row)
    (isFirst : Bool) (size : String) : String → String := fun c =>
  let title := jsTrim (row titleCol)
  let desc := recordDescription cols row
  if c = "Title" then title
  else if c = "URL handle" then slugify title
  else if c = "Description" then desc
  else if c = "Fabric" then extraVal cols row ["Fabric", "Fabric (product.metafields.custom.fabric)"]
  else if c = "Wash Care" then
    extraVal cols row ["Wash Care", "Wash care", "Wash Care (product.metafields.custom.wash_care)"]
  else if c = "Material" then extraVal cols row ["Material", "Material (product.metafields.custom.material)"]
  else if c = "Shelf" then extraVal cols row ["Shelf", "Shelf (product.metafields.custom.shelf)"]
  else if c = "Test" then extraVal cols row ["Test", "Test (product.metafields.custom.test)"]
  else if c = "Variant Image" then extraVal cols row ["Variant Image", "Variant image"]
  else if c = "Variant Weight Unit" then extraVal cols row ["Variant Weight Unit", "Variant weight unit"]
  else if c = "Variant Tax Code" then extraVal cols row ["Variant Tax Code", "Variant tax code"]
  else if c = "Shelf No" then extraVal cols row ["Shelf No", "Shelf Number"]
  else if c = "Sizes" then extraVal cols row ["Sizes", "Size"]
  else if c = "Vendor" then roleRaw cols row brandNames
  else if c = "Product category" then roleRaw cols row prodcatNames
  else if c = "Type" then typeField cols row
  else if c = "Tags" then String.intercalate ", " (recordTags cols row (recordVariantsD cols row))
  else if c = "Published on online store" then "TRUE"
  else if c = "Status" then "Active"
  else if c = "Option1 name" then (if size ≠ "Default" then "Size" else "")
  else if c = "Option1 value" then (if size ≠ "Default" then size else "")
  else if c = "Price" then priceField cols row
  else if c = "Compare-at price" then mrpClean cols row
  else if c = "Cost per item" then costClean cols row
  else if c = "Charge tax" then "TRUE"
  else if c = "Requires shipping" then "TRUE"
  else if c = "Fulfillment service" then "manual"
  else if c = "Gift card" then "FALSE"
  else if c = "SEO title" then title
  else if c = "SEO description" then (if desc ≠ "" then String.mk (desc.data.take 320) else "")
  else if c = "Google Shopping / Google product category" then roleRaw cols row prodcatNames
  else if c = "Product image URL" then
    (if isFirst = true ∧ recordPrimaryImage cols row ≠ "" then recordPrimaryImage cols row else "")
  else if c = "Image position" then
    (if isFirst = true ∧ recordPrimaryImage cols row ≠ "" then "1" else "")
  else ""

/-- A trailing image-only row: handle, image URL and position, all other
template keys left at `""`. -/
def imageRowOut (handleBase url : String) (pos : ℕ) : String → String := fun c =>
  if c = "URL handle" then handleBase
  else if c = "Product image URL" then url
  else if c = "Image position" then toString pos
  else ""

/-- The trailing image rows for the images starting at list position 1, with
`Image position` counting up from `pos`. -/
def imageTailRows (handleBase : String) : ℕ → List String → List (String → String)
  | _, [] => []
  | pos, url :: rest => imageRowOut handleBase url pos :: imageTailRows handleBase (pos + 1) rest

/-- The variant rows of one record: one per (defaulted) variant, the first
flagged as carrying the primary image. -/
def variantRowsPart (cols : List String) (titleCol : String) (row : Row) :
    List (String → String) :=
  match recordVariantsD cols row with
  | [] => []
  | v :: vs => mkVariantRow cols titleCol row true v :: vs.map (mkVariantRow cols titleCol row false)

/-- The trailing image rows of one record (images beyond the first, positions
from 2). -/
def imageRowsPart (cols : List String) (titleCol : String) (row : Row) :
    List (String → String) :=
  imageTailRows (slugify (jsTrim (row titleCol))) 2 ((recordImages cols row).drop 1)

/-- All output rows of one record: none when the title cell is blank or
`"nan"`, else the variant rows followed by the trailing image rows. -/
def recordRows (cols : List String) (titleCol : String) (row : Row) :
    List (String → String) :=
  let title := jsTrim (row titleCol)
  if title = "" ∨ lowerStr title = "nan" then []
  else variantRowsPart cols titleCol row ++ imageRowsPart cols titleCol row

/-- Serialisation of one output file (`Papa.unparse` with explicit `fields`):
the fixed template as header, then each row read off in template order. -/
def serializeFile (rows : List (String → String)) : List String × List (List String) :=
  (TEMPLATE_COLS, rows.map (fun r => TEMPLATE_COLS.map r))

/-- The filter applied to a column's first-ten sample in the title fallback:
non-empty values that are not pure digit strings. -/
def pureDigits (s : String) : Bool :=
  decide (s ≠ "") && s.data.all Char.isDigit

/-- The title-fallback sample of a column: its values in the first ten data
rows, keeping only non-empty non-pure-digit entries. -/
def titleSample (df : List Row) (c : String) : List String :=
  ((df.take 10).map (fun r => r c)).filter (fun s => decide (s ≠ "") && !pureDigits s)

/-- Title-column fallback of `processSingleFile`: first header with a
non-empty sample, else the first header overall. -/
def titleFallback (cols : List String) (df : List Row) : String :=
  match cols.find? (fun c => !(titleSample df c).isEmpty) with
  | some c => c
  | none => cols.headD ""

/-- Resolved title column: the `findColByNames` hit when there is one, else
the fallback scan. -/
def resolveTitleCol (cols : List String) (df : List Row) : String :=
  match findColByNames cols titleNames with
  | some t => t
  | none => titleFallback cols df

/-- Strip the final `.extension` of a filename
(`name.replace(/\.[^/.]+$/, "")`): remove the last dot and what follows when
what follows is at least one character containing neither `.` nor `/`. -/
def stripExtension (s : String) : String :=
  let rev := s.data.reverse
  let ext := rev.takeWhile (fun c => !(decide (c = '.') || decide (c = '/')))
  match rev.drop ext.length with
  | '.' :: _ =>
      if ext.length = 0 then s
      else String.mk ((rev.drop (ext.length + 1)).reverse)
  | _ => s

/-- The archive entry produced for one input file: on success the renamed
CSV with the produced content, on a caught per-file error an
`ERROR_<name>.txt` entry whose body is `Failed to process: <error>`. -/
def processOneFile : String × Except String String → String × String
  | (name, Except.ok csv) => (stripExtension name ++ " - Converted - Shopify.csv", csv)
  | (name, Except.error e) => ("ERROR_" ++ name ++ ".txt", "Failed to process: " ++ e)

/-- Batch model of `processFiles`: per-file outcomes are given as `Except`
(the caught rejection of `processSingleFile`), and each file contributes
exactly one archive entry; JSZip insertion order across concurrently settling
tasks is not guaranteed by the source, so entries are listed in file order
here and no claim about entry order is made. -/
def processFiles (files : List (String × Except String String)) : List (String × String) :=
  files.map processOneFile

/-- The all-empty row function, used as the out-of-range default when
indexing produced rows. -/
def blankRow : String → String := fun _ => ""

/-- Every template key assigned by the variant-row construction; all other
template keys keep their pre-populated `""`. -/
def variantFilledKeys : List String :=
  ["Title", "URL handle", "Description", "Fabric", "Wash Care", "Material", "Shelf", "Test",
   "Variant Image", "Variant Weight Unit", "Variant Tax Code", "Shelf No", "Sizes",
   "Vendor", "Product category", "Type", "Tags", "Published on online store", "Status",
   "Option1 name", "Option1 value", "Price", "Compare-at price", "Cost per item",
   "Charge tax", "Requires shipping", "Fulfillment service", "Gift card",
   "SEO title", "SEO description", "Google Shopping / Google product category",
   "Product image URL", "Image position"]

/-- The only keys a trailing image row carries. -/
def imageRowKeys : List String := ["URL handle", "Product image URL", "Image position"]

/-- Title fallback as the specification words it: the first header among whose
first ten data-row values some value is non-empty and not a pure-digit string;
else the first header overall. -/
def titleFallbackSpec (cols : List String) (df : List Row) : String :=
  match cols.find? (fun c =>
      ((df.take 10).map (fun r => r c)).any (fun s => decide (s ≠ "") && !pureDigits s)) with
  | some c => c
  | none => cols.headD ""

/-- `cleanPrice` as the specification words it: empty for null/blank input;
keep `[0-9.-]` of the trimmed text; when the filtered text parses as a float
equal to its truncated integer (an integral value, i.e. denominator 1), render
the bare integer; otherwise the filtered text unchanged. -/
def cleanPriceSpecJS : Option String → String
  | none => ""
  | some s =>
      let t := jsTrim s
      if t = "" then ""
      else
        let s2 := String.mk (t.data.filter (fun c => c.isDigit || decide (c = '.') || decide (c = '-')))
        match parseFloatNum s2 with
        | some f => if f.toQ.den = 1 then toString f.toQ.num else s2
        | none => s2

/-- Concrete witness header row: title, two firing size columns, two image
columns, a Boy flag, a size chart and the three price columns. -/
def wcolsA : List String :=
  ["Title", "2-4M", "3-6M", "Image 1", "Image 2", "Boy", "Size Chart",
   "Selling Price", "MRP", "Cost"]

/-- Concrete witness record for `wcolsA`. -/
def wrowA : Row := fun c =>
  if c = "Title" then "Baby Cap" else if c = "2-4M" then "x" else if c = "3-6M" then "y"
  else if c = "Image 1" then "u1" else if c = "Image 2" then "u2"
  else if c = "Boy" then "1" else if c = "Size Chart" then "sc"
  else if c = "Selling Price" then "120" else if c = "MRP" then "₹250.00"
  else if c = "Cost" then "80" else ""

/-- Minimal two-variant counterexample header row. -/
def wcolsB : List String := ["Title", "0-3M", "3-6M"]

/-- Record for `wcolsB`: both size cells fire. -/
def wrowB : Row := fun c =>
  if c = "Title" then "Cap" else if c = "0-3M" then "x" else if c = "3-6M" then "y" else ""

/-- Header row on which no title role resolves. -/
def wcols8 : List String := ["Foo", "Bar"]

/-- Single data row for the title-fallback witness: `Foo` holds a pure-digit
value, `Bar` a textual one. -/
def wdf8 : List Row :=
  [fun c => if c = "Foo" then "123" else if c = "Bar" then "abc" else ""]

/-- A two-file batch whose second file fails. -/
def wfiles9 : List (String × Except String String) :=
  [("good.csv", Except.ok "DATA"), ("bad.csv", Except.error "boom")]

/-- Decidable equality of per-file outcomes (needed only to evaluate concrete
batches in the development). -/
instance : DecidableEq (Except String String) := fun a b =>
  match a, b with
  | Except.ok x, Except.ok y =>
      if h : x = y then isTrue (by rw [h]) else isFalse (fun hc => h (by injection hc))
  | Except.ok _, Except.error _ => isFalse (fun hc => Except.noConfusion hc)
  | Except.error _, Except.ok _ => isFalse (fun hc => Except.noConfusion hc)
  | Except.error x, Except.error y =>
      if h : x = y then isTrue (by rw [h]) else isFalse (fun hc => h (by injection hc))

/-! ## Bridging lemmas, sanity checks and claim theorems -/

/-- The integer division used in `roundToNearest9` is the real floor of
`(value + 5) / 10`. -/
theorem round9_div_eq_floor (d : JsNum) :
    (d.num + 5 * 10 ^ d.scale) / (10 ^ (d.scale + 1) : ℤ) = ⌊(d.toQ + 5) / 10⌋ := by
  have h10 : ((10 : ℚ) ^ d.scale) ≠ 0 := by positivity
  have h : (d.toQ + 5) / 10
      = ((d.num + 5 * 10 ^ d.scale : ℤ) : ℚ) / ((10 ^ (d.scale + 1) : ℕ) : ℚ) := by
    rw [JsNum.toQ]
    push_cast
    rw [div_add' _ _ _ h10, div_div, ← pow_succ]
  rw [h, Rat.floor_intCast_div_natCast]
  push_cast
  rfl

/-- A parsed value is non-positive exactly when its (sign-carrying) numerator is. -/
theorem JsNum.toQ_nonpos_iff (d : JsNum) : d.toQ ≤ 0 ↔ d.num ≤ 0 := by
  have hp : (0 : ℚ) < (10 : ℚ) ^ d.scale := by positivity
  rw [JsNum.toQ, div_nonpos_iff]
  constructor
  · rintro (⟨h1, h2⟩ | ⟨h1, h2⟩)
    · exact absurd hp (not_lt.mpr h2)
    · exact_mod_cast h1
  · intro h
    exact Or.inr ⟨by exact_mod_cast h, le_of_lt hp⟩

/-- A parsed value equals `1.0` exactly when its numerator is `10 ^ scale`. -/
theorem JsNum.toQ_eq_one_iff (d : JsNum) : d.toQ = 1 ↔ d.num = 10 ^ d.scale := by
  have hp : ((10 : ℚ) ^ d.scale) ≠ 0 := by positivity
  rw [JsNum.toQ, div_eq_one_iff_eq hp]
  constructor
  · intro h
    exact_mod_cast h
  · intro h
    exact_mod_cast h

example : cleanPrice "₹1,299.00" = "1299" := by decide
example : cleanPrice "19.95" = "19.95" := by decide
example : roundToNearest9 "100" = "99" := by decide
example : roundToNearest9 "101" = "99" := by decide
example : roundToNearest9 "150" = "149" := by decide
example : roundToNearest9 "0" = "0" := by decide
example : roundToNearest9 "" = "" := by decide
example : roundToNearest9 "   " = "" := by decide
example : containsStr "product image url" "image" = true := by decide
example : containsStr "boy" "girls" = false := by decide
example : containsStr "abc" "" = true := by decide
example : detectSizeColumns ["Title", "2-4M", "one size", "12m", "Boy"] = ["2-4M", "one size", "12m"] := by decide
example : sizeColFallbackMatch "5-6 y" = true := by decide
example : sizeColFallbackMatch "Boy" = false := by decide
example : normalizeSizeForMatching "2-4M" = "2-4m" := by decide
example : normalizeSizeForMatching " 2 – 4 m " = "2-4m" := by decide
example : getBoyAgeGroupTags ["2-4M"] = ["Boy 0-3m", "Boy 3-6m"] := by decide
example : getBoyAgeGroupTags ["Default"] = [] := by decide
example : slugify "Kids' T-Shirt!!" = "kids-t-shirt" := by decide
example : isValueOne "1" = true := by decide
example : isValueOne " 1.0 " = true := by decide
example : isValueOne "2" = false := by decide
example : isValueOne "" = false := by decide
example : dedupFirst ["a", "b", "a", "c", "b"] = ["a", "b", "c"] := by decide
example : stripExtension "catalog.xlsx.csv" = "catalog.xlsx" := by decide
example : stripExtension "catalog" = "catalog" := by decide
example : stripExtension "a/b.c" = "a/b" := by decide
example : stripExtension "name." = "name." := by decide

/-- Transport a property through `List.getD` when it holds for every member
and for the default. -/
theorem rowsGetD_spec {α : Type} {P : α → Prop} (l : List α) (d : α) (i : ℕ)
    (hmem : ∀ r ∈ l, P r) (hd : P d) : P (l.getD i d) := by
  rcases lt_or_ge i l.length with h | h
  · rw [List.getD_eq_getElem?_getD, List.getElem?_eq_getElem h]
    exact hmem _ (List.getElem_mem h)
  · rw [List.getD_eq_getElem?_getD, List.getElem?_eq_none h]
    exact hd

/-- `getD` on an append stays in the left list below its length. -/
theorem getD_append_left {α : Type} (l1 l2 : List α) (d : α) (i : ℕ) (h : i < l1.length) :
    (l1 ++ l2).getD i d = l1.getD i d := by
  rw [List.getD_eq_getElem?_getD, List.getD_eq_getElem?_getD, List.getElem?_append, if_pos h]

/-- `getD` on an append reads the right list beyond the left length. -/
theorem getD_append_right {α : Type} (l1 l2 : List α) (d : α) (i : ℕ) (h : l1.length ≤ i) :
    (l1 ++ l2).getD i d = l2.getD (i - l1.length) d := by
  rw [List.getD_eq_getElem?_getD, List.getD_eq_getElem?_getD, List.getElem?_append_right h]

/-- `getD` through a `map` into row functions. -/
theorem getD_map_rows (f : String → (String → String)) (l : List String) (i : ℕ)
    (hi : i < l.length) : (l.map f).getD i blankRow = f (l.getD i "") := by
  rw [List.getD_eq_getElem?_getD, List.getElem?_map, List.getElem?_eq_getElem hi,
    List.getD_eq_getElem?_getD, List.getElem?_eq_getElem hi]
  rfl

/-- Length of the trailing image rows. -/
theorem imageTailRows_length (h : String) : ∀ (p : ℕ) (l : List String),
    (imageTailRows h p l).length = l.length
  | _, [] => rfl
  | p, _ :: rest => by simp [imageTailRows, imageTailRows_length h (p + 1) rest]

/-- Indexing the trailing image rows. -/
theorem imageTailRows_getD (h : String) : ∀ (l : List String) (p j : ℕ), j < l.length →
    (imageTailRows h p l).getD j blankRow = imageRowOut h (l.getD j "") (p + j)
  | [], _, j, hj => absurd hj (by simp)
  | u :: rest, p, 0, _ => by simp [imageTailRows]
  | u :: rest, p, j + 1, hj => by
      simp only [imageTailRows, List.getD_cons_succ]
      rw [imageTailRows_getD h rest (p + 1) j (by simpa using hj)]
      have hpj : p + 1 + j = p + (j + 1) := by omega
      rw [hpj]

/-- Every trailing image row is an `imageRowOut`. -/
theorem mem_imageTailRows {r : String → String} (h : String) : ∀ (p : ℕ) (l : List String),
    r ∈ imageTailRows h p l → ∃ u q, r = imageRowOut h u q
  | _, [], hr => absurd hr (by simp [imageTailRows])
  | p, u :: rest, hr => by
      simp only [imageTailRows, List.mem_cons] at hr
      rcases hr with rfl | hr2
      · exact ⟨u, p, rfl⟩
      · exact mem_imageTailRows h (p + 1) rest hr2

/-- The defaulted variant list is never empty. -/
theorem recordVariantsD_ne_nil (cols : List String) (row : Row) :
    recordVariantsD cols row ≠ [] := by
  rw [recordVariantsD]
  split_ifs with h
  · simp
  · exact h

/-- Length of the defaulted variant list. -/
theorem recordVariantsD_length (cols : List String) (row : Row) :
    (recordVariantsD cols row).length = max 1 (recordVariants cols row).length := by
  rw [recordVariantsD]
  split_ifs with h
  · simp [h]
  · have := List.length_pos.mpr h
    omega

/-- One variant row per defaulted variant. -/
theorem variantRowsPart_length (cols : List String) (titleCol : String) (row : Row) :
    (variantRowsPart cols titleCol row).length = (recordVariantsD cols row).length := by
  rcases h : recordVariantsD cols row with _ | ⟨v, vs⟩ <;> simp [variantRowsPart, h]

/-- One trailing image row per image beyond the first. -/
theorem imageRowsPart_length (cols : List String) (titleCol : String) (row : Row) :
    (imageRowsPart cols titleCol row).length = (recordImages cols row).length - 1 := by
  rw [imageRowsPart, imageTailRows_length, List.length_drop]

/-- Indexing the variant rows: position `i` holds the row built from the
`i`-th defaulted variant, flagged as first exactly at `i = 0`. -/
theorem variantRowsPart_getD (cols : List String) (titleCol : String) (row : Row)
    (i : ℕ) (hi : i < (recordVariantsD cols row).length) :
    (variantRowsPart cols titleCol row).getD i blankRow
      = mkVariantRow cols titleCol row (decide (i = 0)) ((recordVariantsD cols row).getD i "") := by
  rcases h : recordVariantsD cols row with _ | ⟨v, vs⟩
  · rw [h] at hi
    simp at hi
  · rw [h] at hi
    simp only [variantRowsPart, h]
    cases i with
    | zero => simp
    | succ j =>
        simp only [List.getD_cons_succ]
        rw [getD_map_rows _ _ _ (by simpa using hi)]
        simp

/-- Every variant row is a `mkVariantRow`. -/
theorem mem_variantRowsPart {r : String → String} (cols : List String) (titleCol : String)
    (row : Row) (hr : r ∈ variantRowsPart cols titleCol row) :
    ∃ b v, r = mkVariantRow cols titleCol row b v := by
  rcases h : recordVariantsD cols row with _ | ⟨v, vs⟩
  · rw [variantRowsPart, h] at hr
    simp at hr
  · rw [variantRowsPart, h] at hr
    simp only [List.mem_cons, List.mem_map] at hr
    rcases hr with rfl | ⟨w, _, rfl⟩
    · exact ⟨true, v, rfl⟩
    · exact ⟨false, w, rfl⟩

/-- Membership after a guarded push. -/
theorem mem_pushIfNew_iff (a t : String) (tags : List String) :
    a ∈ pushIfNew tags t ↔ a = t ∨ a ∈ tags := by
  rw [pushIfNew]
  split_ifs with h
  · constructor
    · exact fun h2 => Or.inr h2
    · rintro (rfl | h2)
      · exact h
      · exact h2
  · simp [List.mem_append, or_comm]

/-- A guarded push keeps the pushed value present. -/
theorem mem_pushIfNew_self (t : String) (tags : List String) : t ∈ pushIfNew tags t :=
  (mem_pushIfNew_iff t t tags).mpr (Or.inl rfl)

/-- A guarded push preserves membership. -/
theorem mem_pushIfNew_of_mem {a : String} (t : String) (tags : List String) (h : a ∈ tags) :
    a ∈ pushIfNew tags t :=
  (mem_pushIfNew_iff a t tags).mpr (Or.inr h)

/-- One flag-scan step preserves membership. -/
theorem mem_flagStep_of_mem {a : String} (row : Row) (tags : List String) (col : String)
    (h : a ∈ tags) : a ∈ flagStep row tags col := by
  rw [flagStep]
  split_ifs <;>
    simp_all [mem_pushIfNew_iff]

/-- The whole flag scan preserves membership. -/
theorem mem_flagFold_of_mem {a : String} (row : Row) : ∀ (cols : List String)
    (tags : List String), a ∈ tags → a ∈ cols.foldl (flagStep row) tags
  | [], _, h => h
  | c :: cs, tags, h =>
      mem_flagFold_of_mem row cs (flagStep row tags c) (mem_flagStep_of_mem row tags c h)

/-- A header normalising to `"boy"` whose cell passes `isValueOne` puts
`"Boy"` into the flag-scan result. -/
theorem flagFold_adds_boy (row : Row) : ∀ (cols : List String) (tags : List String)
    (col : String), col ∈ cols → flagNorm col = "boy" → isValueOne (row col) = true →
    "Boy" ∈ cols.foldl (flagStep row) tags
  | [], _, _, hmem, _, _ => absurd hmem (by simp)
  | c :: cs, tags, col, hmem, hnorm, hone => by
      rcases List.mem_cons.mp hmem with rfl | htail
      · refine mem_flagFold_of_mem row cs _ ?_
        have e1 : containsStr "boy" "girls" = false := by decide
        have e3 : containsStr "boy" "boys" = false := by decide
        simp [flagStep, hnorm, hone, e1, e3, mem_pushIfNew_iff]
      · exact flagFold_adds_boy row cs (flagStep row tags c) col htail hnorm hone

/-- Merging a tag list preserves membership of the accumulator. -/
theorem mem_mergeNew_left {a : String} : ∀ (ts tags : List String), a ∈ tags →
    a ∈ mergeNew tags ts
  | [], _, h => h
  | t :: ts', tags, h =>
      mem_mergeNew_left ts' (pushIfNew tags t) (mem_pushIfNew_of_mem t tags h)

/-- Merging a tag list makes every merged tag present. -/
theorem mem_mergeNew_right {a : String} : ∀ (ts tags : List String), a ∈ ts →
    a ∈ mergeNew tags ts
  | [], _, h => absurd h (by simp)
  | t :: ts', tags, h => by
      rcases List.mem_cons.mp h with rfl | htail
      · exact mem_mergeNew_left ts' (pushIfNew tags a) (mem_pushIfNew_self a tags)
      · exact mem_mergeNew_right ts' (pushIfNew tags t) htail

/-- The age-group scan preserves membership of the accumulator. -/
theorem mem_ageGroupFold_of_mem {a : String} (nv : List String) :
    ∀ (gs : List AgeGroupConfig) (acc : List String), a ∈ acc → a ∈ ageGroupFold nv gs acc
  | [], _, h => h
  | g :: gs', acc, h => by
      rw [ageGroupFold]
      refine mem_ageGroupFold_of_mem nv gs' _ ?_
      split_ifs <;> simp_all

/-- A group matched by some normalised variant contributes its tag. -/
theorem ageGroupFold_adds (nv : List String) :
    ∀ (gs : List AgeGroupConfig) (acc : List String) (g : AgeGroupConfig), g ∈ gs →
    nv.any (variantMatchesGroup g) = true → g.tag ∈ ageGroupFold nv gs acc
  | [], _, _, hmem, _ => absurd hmem (by simp)
  | g0 :: gs', acc, g, hmem, hany => by
      rcases List.mem_cons.mp hmem with rfl | htail
      · rw [ageGroupFold, if_pos hany]
        refine mem_ageGroupFold_of_mem nv gs' _ ?_
        split_ifs with h
        · exact h
        · simp
      · rw [ageGroupFold]
        exact ageGroupFold_adds nv gs' _ g htail hany

/-- Nothing emitted by the de-duplication worker is in its `seen` set. -/
theorem dedupFirstAux_not_mem_seen {a : String} : ∀ (l seen : List String),
    a ∈ dedupFirstAux seen l → a ∉ seen
  | [], _, h => absurd h (by simp [dedupFirstAux])
  | x :: xs, seen, h => by
      rw [dedupFirstAux] at h
      split_ifs at h with hx
      · exact dedupFirstAux_not_mem_seen xs seen h
      · rcases List.mem_cons.mp h with rfl | htail
        · exact hx
        · have := dedupFirstAux_not_mem_seen xs (seen ++ [x]) htail
          exact fun hc => this (List.mem_append_left _ hc)

/-- The de-duplication worker emits no duplicates. -/
theorem dedupFirstAux_nodup : ∀ (l seen : List String), (dedupFirstAux seen l).Nodup
  | [], _ => by simp [dedupFirstAux]
  | x :: xs, seen => by
      rw [dedupFirstAux]
      split_ifs with hx
      · exact dedupFirstAux_nodup xs seen
      · refine List.Nodup.cons ?_ (dedupFirstAux_nodup xs (seen ++ [x]))
        intro hc
        exact dedupFirstAux_not_mem_seen xs (seen ++ [x]) hc
          (List.mem_append_right _ (by simp))

/-- The de-duplication worker keeps every unseen member. -/
theorem mem_dedupFirstAux_of_mem {a : String} : ∀ (l seen : List String),
    a ∈ l → a ∉ seen → a ∈ dedupFirstAux seen l
  | [], _, h, _ => absurd h (by simp)
  | x :: xs, seen, h, hs => by
      rw [dedupFirstAux]
      split_ifs with hx
      · rcases List.mem_cons.mp h with rfl | htail
        · exact absurd hx hs
        · exact mem_dedupFirstAux_of_mem xs seen htail hs
      · rcases List.mem_cons.mp h with rfl | htail
        · exact List.mem_cons_self _ _
        · by_cases hax : a = x
          · subst hax
            exact List.mem_cons_self _ _
          · refine List.mem_cons_of_mem _ ?_
            refine mem_dedupFirstAux_of_mem xs (seen ++ [x]) htail ?_
            intro hc
            rcases List.mem_append.mp hc with h1 | h2
            · exact hs h1
            · exact hax (by simpa using h2)

/-- `dedupFirst` has no duplicates. -/
theorem dedupFirst_nodup (l : List String) : (dedupFirst l).Nodup :=
  dedupFirstAux_nodup l []

/-- `dedupFirst` keeps every member. -/
theorem mem_dedupFirst_of_mem {a : String} (l : List String) (h : a ∈ l) : a ∈ dedupFirst l :=
  mem_dedupFirstAux_of_mem l [] h (by simp)

/-- Template keys never assigned by the variant-row construction keep their
pre-populated empty string. -/
theorem mkVariantRow_unfilled (cols : List String) (titleCol : String) (row : Row)
    (b : Bool) (v : String) (c : String) (hc : c ∉ variantFilledKeys) :
    mkVariantRow cols titleCol row b v c = "" := by
  simp only [variantFilledKeys, List.mem_cons, List.not_mem_nil, or_false, not_or] at hc
  obtain ⟨h1, h2, h3, h4, h5, h6, h7, h8, h9, h10, h11, h12, h13, h14, h15, h16, h17,
    h18, h19, h20, h21, h22, h23, h24, h25, h26, h27, h28, h29, h30, h31, h32, h33⟩ := hc
  simp [mkVariantRow, h1, h2, h3, h4, h5, h6, h7, h8, h9, h10, h11, h12, h13, h14,
    h15, h16, h17, h18, h19, h20, h21, h22, h23, h24, h25, h26, h27, h28, h29, h30,
    h31, h32, h33]

/-- Keys outside handle/URL/position are empty on a trailing image row. -/
theorem imageRowOut_unfilled (handleBase url : String) (pos : ℕ) (c : String)
    (hc : c ∉ imageRowKeys) : imageRowOut handleBase url pos c = "" := by
  simp only [imageRowKeys, List.mem_cons, List.not_mem_nil, or_false, not_or] at hc
  obtain ⟨h1, h2, h3⟩ := hc
  simp [imageRowOut, h1, h2, h3]

/-- A filtered list is empty exactly when no element passes the predicate. -/
theorem filter_isEmpty_eq_not_any (p : String → Bool) : ∀ l : List String,
    (l.filter p).isEmpty = !l.any p
  | [] => rfl
  | x :: xs => by
      rw [List.filter_cons, List.any_cons]
      by_cases h : p x = true
      · simp [h]
      · simp [h, filter_isEmpty_eq_not_any p xs]

/-- The batch output at index `j` is the per-file entry of input `j`. -/
theorem processFiles_getD (files : List (String × Except String String)) (j : ℕ)
    (hj : j < files.length) :
    (processFiles files).getD j ("", "") = processOneFile (files.getD j ("", Except.ok "")) := by
  rw [processFiles, List.getD_eq_getElem?_getD, List.getElem?_map, List.getElem?_eq_getElem hj,
    List.getD_eq_getElem?_getD, List.getElem?_eq_getElem hj]
  rfl

/-- The `Number.isInteger` test of `cleanPrice` (numerator divisible by the
scale power) holds exactly when the parsed rational is an integer, and the
rendered bare integer is its numerator. -/
theorem JsNum.int_value (d : JsNum) :
    (d.num % (10 ^ d.scale : ℤ) = 0 ↔ d.toQ.den = 1)
    ∧ (d.num % (10 ^ d.scale : ℤ) = 0 → d.toQ.num = d.num / (10 ^ d.scale : ℤ)) := by
  have hp : ((10 : ℚ) ^ d.scale) ≠ 0 := by positivity
  have hz : (10 ^ d.scale : ℤ) ≠ 0 := by positivity
  have key : d.num % (10 ^ d.scale : ℤ) = 0 →
      d.toQ.den = 1 ∧ d.toQ.num = d.num / (10 ^ d.scale : ℤ) := by
    intro h
    obtain ⟨k, hk⟩ := Int.dvd_of_emod_eq_zero h
    have hq : d.toQ = (k : ℚ) := by
      rw [JsNum.toQ, hk]
      push_cast
      rw [mul_comm, mul_div_assoc, div_self hp, mul_one]
    have hdiv : d.num / (10 ^ d.scale : ℤ) = k := by
      rw [hk]
      exact Int.mul_ediv_cancel_left k hz
    rw [hq, hdiv]
    exact ⟨Rat.den_intCast k, Rat.num_intCast k⟩
  constructor
  · constructor
    · exact fun h => (key h).1
    · intro hden
      have hnum : (d.toQ.num : ℚ) = d.toQ := by
        have h2 := Rat.num_div_den d.toQ
        rw [hden] at h2
        simpa using h2
      have hval : (d.num : ℚ) = d.toQ * (10 : ℚ) ^ d.scale := by
        rw [JsNum.toQ, div_mul_cancel₀ _ hp]
      have hint : d.num = d.toQ.num * 10 ^ d.scale := by
        have : (d.num : ℚ) = (d.toQ.num : ℚ) * (10 : ℚ) ^ d.scale := by
          rw [hval, hnum]
        exact_mod_cast this
      rw [hint]
      simp [Int.mul_emod_right]
  · exact fun h => (key h).2

/-- C4 counterexample: the claim says a blank input is returned unchanged, but
`roundToNearest9` maps the blank (all-whitespace, non-empty) input `"   "` to
`""`, which differs from the input. -/
theorem c4_roundToNearest9_counterexample :
    jsTrim "   " = "" ∧ roundToNearest9 "   " = "" ∧ "   " ≠ "" := by
  decide

/-- C4 (amended): `roundToNearest9` returns `""` (not the input unchanged) on
blank input; returns the input unchanged when the input does not parse or its
parsed value is ≤ 0 (equivalently, non-positive numerator); and otherwise
returns `max 0 (floor((price + 5) / 10) * 10 - 1)` rendered as text; with the
five quoted examples. -/
theorem c4_roundToNearest9_spec :
    (∀ d : JsNum, d.toQ ≤ 0 ↔ d.num ≤ 0)
    ∧ (∀ s, jsTrim s = "" → roundToNearest9 s = "")
    ∧ (∀ s, jsTrim s ≠ "" → parseFloatNum s = none → roundToNearest9 s = s)
    ∧ (∀ s d, jsTrim s ≠ "" → parseFloatNum s = some d → d.num ≤ 0 → roundToNearest9 s = s)
    ∧ (∀ s d, jsTrim s ≠ "" → parseFloatNum s = some d → 0 < d.num →
        roundToNearest9 s = toString (max 0 (⌊(d.toQ + 5) / 10⌋ * 10 - 1)))
    ∧ roundToNearest9 "100" = "99" ∧ roundToNearest9 "101" = "99"
    ∧ roundToNearest9 "150" = "149" ∧ roundToNearest9 "0" = "0"
    ∧ roundToNearest9 "" = "" := by
  have hblank : ∀ s : String, s = "" → jsTrim s = "" := by
    rintro s rfl
    decide
  refine ⟨JsNum.toQ_nonpos_iff, ?_, ?_, ?_, ?_, by decide, by decide, by decide, by decide,
    by decide⟩
  · intro s h
    rw [roundToNearest9, if_pos (Or.inr h)]
  · intro s h hp
    rw [roundToNearest9, if_neg (by rintro (he | he) <;> exact h (by first | exact hblank s he | exact he)), hp]
  · intro s d h hp hd
    rw [roundToNearest9, if_neg (by rintro (he | he) <;> exact h (by first | exact hblank s he | exact he)), hp]
    show (if d.num ≤ 0 then s
      else toString (max 0 ((d.num + 5 * 10 ^ d.scale) / (10 ^ (d.scale + 1) : ℤ) * 10 - 1))) = s
    exact if_pos hd
  · intro s d h hp hd
    rw [roundToNearest9, if_neg (by rintro (he | he) <;> exact h (by first | exact hblank s he | exact he)), hp]
    show (if d.num ≤ 0 then s
      else toString (max 0 ((d.num + 5 * 10 ^ d.scale) / (10 ^ (d.scale + 1) : ℤ) * 10 - 1)))
      = toString (max 0 (⌊(d.toQ + 5) / 10⌋ * 10 - 1))
    rw [if_neg (by omega), round9_div_eq_floor]

/-- C4 witness: the amended formula branch evaluated at `"42"`. -/
theorem c4_roundToNearest9_spec_witness :
    jsTrim "42" ≠ "" ∧ parseFloatNum "42" = some ⟨42, 0⟩ ∧ (0 : ℤ) < (JsNum.mk 42 0).num
    ∧ roundToNearest9 "42" = toString (max 0 (⌊((JsNum.mk 42 0).toQ + 5) / 10⌋ * 10 - 1)) :=
  ⟨by decide, by decide, by decide,
    c4_roundToNearest9_spec.2.2.2.2.1 "42" ⟨42, 0⟩ (by decide) (by decide) (by decide)⟩

/-- C5: `cleanPrice` agrees everywhere with the specification's description
(null/blank to empty; keep `[0-9.-]` of the trimmed text; render the bare
integer when the filtered text parses to an integral float, i.e. denominator
1; otherwise the filtered text unchanged), and the three quoted examples. -/
theorem c5_cleanPrice_spec :
    (∀ x : Option String, cleanPriceJS x = cleanPriceSpecJS x)
    ∧ cleanPriceJS (some "₹1,299.00") = "1299"
    ∧ cleanPriceJS (some "19.95") = "19.95"
    ∧ cleanPriceJS none = "" := by
  refine ⟨?_, by decide, by decide, by decide⟩
  rintro (_ | s)
  · rfl
  · show cleanPrice s = cleanPriceSpecJS (some s)
    simp only [cleanPrice, cleanPriceSpecJS]
    by_cases h : jsTrim s = ""
    · rw [if_pos h, if_pos h]
    · rw [if_neg h, if_neg h]
      set s2 : String := String.mk ((jsTrim s).data.filter
        (fun c => c.isDigit || decide (c = '.') || decide (c = '-'))) with hs2
      by_cases h2 : s2 = ""
      · rw [if_pos h2, h2]
        have hnone : parseFloatNum "" = none := by decide
        rw [hnone]
      · rw [if_neg h2]
        rcases hp : parseFloatNum s2 with _ | f
        · rfl
        · show (if f.num % (10 ^ f.scale : ℤ) = 0 then toString (f.num / (10 ^ f.scale : ℤ))
            else s2) = (if f.toQ.den = 1 then toString f.toQ.num else s2)
          obtain ⟨hiff, hval⟩ := JsNum.int_value f
          by_cases hmod : f.num % (10 ^ f.scale : ℤ) = 0
          · rw [if_pos hmod, if_pos (hiff.mp hmod), hval hmod]
          · rw [if_neg hmod, if_neg (fun hden => hmod (hiff.mpr hden))]

/-- C1: for a record with non-empty, non-"nan" title, the number of produced
output rows is `max 1 variantCount + max 0 (imageCount - 1)` (truncated
subtraction), where `variantCount` counts the size columns whose cell fires
and `imageCount` is the length of the assembled image list. -/
theorem c1_rows_count (cols : List String) (titleCol : String) (row : Row)
    (h1 : jsTrim (row titleCol) ≠ "") (h2 : lowerStr (jsTrim (row titleCol)) ≠ "nan") :
    (recordRows cols titleCol row).length
      = max 1 (recordVariants cols row).length + ((recordImages cols row).length - 1) := by
  simp only [recordRows]
  rw [if_neg (by push_neg; exact ⟨h1, h2⟩)]
  rw [List.length_append, variantRowsPart_length, recordVariantsD_length, imageRowsPart_length]

/-- C1 witness: the concrete record has 2 firing size columns and 3 assembled
images, so 2 + 2 = 4 rows. -/
theorem c1_rows_count_witness :
    jsTrim (wrowA "Title") ≠ "" ∧ lowerStr (jsTrim (wrowA "Title")) ≠ "nan"
    ∧ (recordRows wcolsA "Title" wrowA).length
        = max 1 (recordVariants wcolsA wrowA).length
          + ((recordImages wcolsA wrowA).length - 1) :=
  ⟨by decide, by decide, c1_rows_count wcolsA "Title" wrowA (by decide) (by decide)⟩

/-- C2 counterexample: the fixed template holds 65 keys, not the 67 the claim
states. -/
theorem c2_template_counterexample : TEMPLATE_COLS.length = 65 ∧ TEMPLATE_COLS.length ≠ 67 := by
  decide

/-- C2 (amended): every produced row is a mapping over the fixed 65-key
template — every template key outside the explicitly filled set reads as the
pre-populated empty string — and every produced file is serialised with the
same fixed, ordered 65-column key set, independent of which roles resolved. -/
theorem c2_schema :
    TEMPLATE_COLS.length = 65
    ∧ (∀ (cols : List String) (titleCol : String) (row : Row) (i : ℕ) (c : String),
        c ∉ variantFilledKeys → ((recordRows cols titleCol row).getD i blankRow) c = "")
    ∧ (∀ rows : List (String → String), (serializeFile rows).1 = TEMPLATE_COLS)
    ∧ (∀ (rows : List (String → String)) (l : List String), l ∈ (serializeFile rows).2 →
        l.length = 65) := by
  refine ⟨by decide, ?_, fun _ => rfl, ?_⟩
  · intro cols titleCol row i c hc
    have hc3 : c ∉ imageRowKeys := by
      intro hk
      apply hc
      simp only [imageRowKeys, List.mem_cons, List.not_mem_nil, or_false] at hk
      rcases hk with rfl | rfl | rfl <;> decide
    refine rowsGetD_spec (α := String → String) (P := fun r => r c = "") _ _ _ ?_ rfl
    intro r hr
    simp only [recordRows] at hr
    split_ifs at hr with hguard
    · simp at hr
    · rcases List.mem_append.mp hr with hv | hi
      · obtain ⟨b, v, rfl⟩ := mem_variantRowsPart cols titleCol row hv
        exact mkVariantRow_unfilled cols titleCol row b v c hc
      · rw [imageRowsPart] at hi
        obtain ⟨u, q, rfl⟩ := mem_imageTailRows _ _ _ hi
        exact imageRowOut_unfilled _ u q c hc3
  · intro rows l hl
    simp only [serializeFile] at hl
    rcases List.mem_map.mp hl with ⟨r, _, rfl⟩
    simp only [List.length_map]
    decide

/-- C2 witness: the unfilled key `SKU` of a concretely produced first row is
empty. -/
theorem c2_schema_witness :
    "SKU" ∉ variantFilledKeys
    ∧ ((recordRows wcolsA "Title" wrowA).getD 0 blankRow) "SKU" = "" :=
  ⟨by decide, c2_schema.2.1 wcolsA "Title" wrowA 0 "SKU" (by decide)⟩

/-- Field evaluation: `Title`. -/
theorem mkVariantRow_title (cols : List String) (titleCol : String) (row : Row)
    (b : Bool) (v : String) : mkVariantRow cols titleCol row b v "Title" = jsTrim (row titleCol) :=
  rfl

/-- Field evaluation: `URL handle`. -/
theorem mkVariantRow_handle (cols : List String) (titleCol : String) (row : Row)
    (b : Bool) (v : String) :
    mkVariantRow cols titleCol row b v "URL handle" = slugify (jsTrim (row titleCol)) :=
  rfl

/-- Field evaluation: `Tags`. -/
theorem mkVariantRow_tags (cols : List String) (titleCol : String) (row : Row)
    (b : Bool) (v : String) :
    mkVariantRow cols titleCol row b v "Tags"
      = String.intercalate ", " (recordTags cols row (recordVariantsD cols row)) :=
  rfl

/-- Field evaluation: `Option1 name`. -/
theorem mkVariantRow_opt1name (cols : List String) (titleCol : String) (row : Row)
    (b : Bool) (v : String) :
    mkVariantRow cols titleCol row b v "Option1 name" = (if v ≠ "Default" then "Size" else "") :=
  rfl

/-- Field evaluation: `Option1 value`. -/
theorem mkVariantRow_opt1val (cols : List String) (titleCol : String) (row : Row)
    (b : Bool) (v : String) :
    mkVariantRow cols titleCol row b v "Option1 value" = (if v ≠ "Default" then v else "") :=
  rfl

/-- Field evaluation: `Price`. -/
theorem mkVariantRow_price (cols : List String) (titleCol : String) (row : Row)
    (b : Bool) (v : String) :
    mkVariantRow cols titleCol row b v "Price" = priceField cols row :=
  rfl

/-- Field evaluation: `Compare-at price`. -/
theorem mkVariantRow_cmp (cols : List String) (titleCol : String) (row : Row)
    (b : Bool) (v : String) :
    mkVariantRow cols titleCol row b v "Compare-at price" = mrpClean cols row :=
  rfl

/-- Field evaluation: `Cost per item`. -/
theorem mkVariantRow_cost (cols : List String) (titleCol : String) (row : Row)
    (b : Bool) (v : String) :
    mkVariantRow cols titleCol row b v "Cost per item" = costClean cols row :=
  rfl

/-- Field evaluation: `Product image URL`. -/
theorem mkVariantRow_imageURL (cols : List String) (titleCol : String) (row : Row)
    (b : Bool) (v : String) :
    mkVariantRow cols titleCol row b v "Product image URL"
      = (if b = true ∧ recordPrimaryImage cols row ≠ ""
          then recordPrimaryImage cols row else "") :=
  rfl

/-- Field evaluation: `Image position`. -/
theorem mkVariantRow_imagePos (cols : List String) (titleCol : String) (row : Row)
    (b : Bool) (v : String) :
    mkVariantRow cols titleCol row b v "Image position"
      = (if b = true ∧ recordPrimaryImage cols row ≠ "" then "1" else "") :=
  rfl

/-- C3 counterexample: on a record with two firing size columns, the second
variant row still carries the Option1 fields, refuting the claim that only the
first assembled row carries them. -/
theorem c3_option1_counterexample :
    (recordVariants wcolsB wrowB).length = 2
    ∧ ((recordRows wcolsB "Title" wrowB).getD 1 blankRow) "Option1 name" = "Size"
    ∧ ((recordRows wcolsB "Title" wrowB).getD 1 blankRow) "Option1 value" = "3-6M"
    ∧ ("Size" : String) ≠ "" := by
  decide

/-- C3 (amended): only the first assembled row carries the primary image
(position "1"); every variant row carries its own Option1 fields (name "Size"
and value its variant when the variant is not "Default", blank otherwise);
later variant rows repeat the descriptive fields (title, handle, tags) but
carry no image; trailing image rows carry only the handle, the image URL and
an image position incrementing from 2. -/
theorem c3_row_shape (cols : List String) (titleCol : String) (row : Row) :
    (((variantRowsPart cols titleCol row).getD 0 blankRow) "Product image URL"
        = recordPrimaryImage cols row
      ∧ ((variantRowsPart cols titleCol row).getD 0 blankRow) "Image position"
        = (if recordPrimaryImage cols row ≠ "" then "1" else ""))
    ∧ (∀ i, 0 < i → i < (recordVariantsD cols row).length →
        ((variantRowsPart cols titleCol row).getD i blankRow) "Product image URL" = ""
        ∧ ((variantRowsPart cols titleCol row).getD i blankRow) "Image position" = "")
    ∧ (∀ i, i < (recordVariantsD cols row).length →
        ((variantRowsPart cols titleCol row).getD i blankRow) "Title" = jsTrim (row titleCol)
        ∧ ((variantRowsPart cols titleCol row).getD i blankRow) "URL handle"
            = slugify (jsTrim (row titleCol))
        ∧ ((variantRowsPart cols titleCol row).getD i blankRow) "Tags"
            = String.intercalate ", " (recordTags cols row (recordVariantsD cols row))
        ∧ ((variantRowsPart cols titleCol row).getD i blankRow) "Option1 name"
            = (if (recordVariantsD cols row).getD i "" ≠ "Default" then "Size" else "")
        ∧ ((variantRowsPart cols titleCol row).getD i blankRow) "Option1 value"
            = (if (recordVariantsD cols row).getD i "" ≠ "Default"
                then (recordVariantsD cols row).getD i "" else ""))
    ∧ (∀ j, j < (imageRowsPart cols titleCol row).length →
        ((imageRowsPart cols titleCol row).getD j blankRow) "URL handle"
            = slugify (jsTrim (row titleCol))
        ∧ ((imageRowsPart cols titleCol row).getD j blankRow) "Product image URL"
            = (recordImages cols row).getD (j + 1) ""
        ∧ ((imageRowsPart cols titleCol row).getD j blankRow) "Image position"
            = toString (2 + j)
        ∧ ∀ c, c ∉ imageRowKeys →
            ((imageRowsPart cols titleCol row).getD j blankRow) c = "") := by
  have hpos : 0 < (recordVariantsD cols row).length :=
    List.length_pos.mpr (recordVariantsD_ne_nil cols row)
  refine ⟨⟨?_, ?_⟩, ?_, ?_, ?_⟩
  · rw [variantRowsPart_getD cols titleCol row 0 hpos, mkVariantRow_imageURL]
    by_cases hpr : recordPrimaryImage cols row = ""
    · rw [if_neg (by simp [hpr]), hpr]
    · rw [if_pos ⟨rfl, hpr⟩]
  · rw [variantRowsPart_getD cols titleCol row 0 hpos, mkVariantRow_imagePos]
    by_cases hpr : recordPrimaryImage cols row = ""
    · rw [if_neg (by simp [hpr]), if_neg (by simp [hpr])]
    · rw [if_pos ⟨rfl, hpr⟩, if_pos hpr]
  · intro i h0 hlt
    have hb : (decide (i = 0)) = false := decide_eq_false (by omega)
    rw [variantRowsPart_getD cols titleCol row i hlt, hb, mkVariantRow_imageURL,
      mkVariantRow_imagePos]
    constructor <;> rw [if_neg (by simp)]
  · intro i hlt
    rw [variantRowsPart_getD cols titleCol row i hlt]
    exact ⟨mkVariantRow_title _ _ _ _ _, mkVariantRow_handle _ _ _ _ _,
      mkVariantRow_tags _ _ _ _ _, mkVariantRow_opt1name _ _ _ _ _,
      mkVariantRow_opt1val _ _ _ _ _⟩
  · intro j hj
    rw [imageRowsPart_length] at hj
    have hj2 : j < ((recordImages cols row).drop 1).length := by
      rw [List.length_drop]
      omega
    rw [imageRowsPart, imageTailRows_getD _ _ _ _ hj2]
    refine ⟨rfl, ?_, rfl, fun c hc => imageRowOut_unfilled _ _ _ c hc⟩
    show ((recordImages cols row).drop 1).getD j "" = (recordImages cols row).getD (j + 1) ""
    rw [List.getD_eq_getElem?_getD, List.getD_eq_getElem?_getD, List.getElem?_drop]
    have h1j : 1 + j = j + 1 := by omega
    rw [h1j]

/-- C3 witness: in the concrete record, the second variant row carries no
image cells. -/
theorem c3_row_shape_witness :
    1 < (recordVariantsD wcolsA wrowA).length
    ∧ ((variantRowsPart wcolsA "Title" wrowA).getD 1 blankRow) "Product image URL" = ""
    ∧ ((variantRowsPart wcolsA "Title" wrowA).getD 1 blankRow) "Image position" = "" :=
  ⟨by decide,
    ((c3_row_shape wcolsA "Title" wrowA).2.1 1 (by decide) (by decide)).1,
    ((c3_row_shape wcolsA "Title" wrowA).2.1 1 (by decide) (by decide)).2⟩

/-- C6: on every variant row, `Price` is the rounded cleaned selling price
when that is non-empty, else the rounded cleaned cost when that is non-empty,
else blank; `Compare-at price` is the cleaned MRP verbatim and
`Cost per item` the cleaned cost verbatim, neither rounded. -/
theorem c6_price_fields (cols : List String) (titleCol : String) (row : Row) (i : ℕ)
    (hi : i < (variantRowsPart cols titleCol row).length) :
    ((variantRowsPart cols titleCol row).getD i blankRow) "Price"
        = (if sellingClean cols row ≠ "" then roundToNearest9 (sellingClean cols row)
           else if costClean cols row ≠ "" then roundToNearest9 (costClean cols row) else "")
    ∧ ((variantRowsPart cols titleCol row).getD i blankRow) "Compare-at price"
        = mrpClean cols row
    ∧ ((variantRowsPart cols titleCol row).getD i blankRow) "Cost per item"
        = costClean cols row := by
  rw [variantRowsPart_length] at hi
  rw [variantRowsPart_getD cols titleCol row i hi]
  exact ⟨mkVariantRow_price _ _ _ _ _, mkVariantRow_cmp _ _ _ _ _, mkVariantRow_cost _ _ _ _ _⟩

/-- C6 witness: concrete record with selling price 120 (rounds to 119), MRP
`"₹250.00"` (cleaned to 250, not rounded) and cost 80 (verbatim). -/
theorem c6_price_fields_witness :
    0 < (variantRowsPart wcolsA "Title" wrowA).length
    ∧ ((variantRowsPart wcolsA "Title" wrowA).getD 0 blankRow) "Price" = "119"
    ∧ ((variantRowsPart wcolsA "Title" wrowA).getD 0 blankRow) "Compare-at price" = "250"
    ∧ ((variantRowsPart wcolsA "Title" wrowA).getD 0 blankRow) "Cost per item" = "80" := by
  have h := c6_price_fields wcolsA "Title" wrowA 0 (by decide)
  refine ⟨by decide, ?_, ?_, ?_⟩
  · rw [h.1]
    decide
  · rw [h.2.1]
    decide
  · rw [h.2.2]
    decide

/-- A variant list containing the literal `"2-4M"` matches the first boy age
bracket: its normalisation `"2-4m"` is one of the bracket's patterns. -/
theorem boyAge_bracket1 (variants : List String) (h : "2-4M" ∈ variants) :
    "Boy 0-3m" ∈ getBoyAgeGroupTags variants := by
  rw [getBoyAgeGroupTags]
  refine ageGroupFold_adds _ _ _ _ (List.mem_cons_self _ _) ?_
  rw [List.any_eq_true]
  refine ⟨normalizeSizeForMatching "2-4M", ?_, by decide⟩
  rw [normalizedVariantsOf]
  exact List.mem_map.mpr ⟨"2-4M", List.mem_filter.mpr ⟨h, by decide⟩, rfl⟩

/-- A variant list containing the literal `"2-4M"` also matches the second boy
age bracket, whose patterns again list `"2-4m"`. -/
theorem boyAge_bracket2 (variants : List String) (h : "2-4M" ∈ variants) :
    "Boy 3-6m" ∈ getBoyAgeGroupTags variants := by
  rw [getBoyAgeGroupTags]
  refine ageGroupFold_adds _ _ _ _ (List.mem_cons_of_mem _ (List.mem_cons_self _ _)) ?_
  rw [List.any_eq_true]
  refine ⟨normalizeSizeForMatching "2-4M", ?_, by decide⟩
  rw [normalizedVariantsOf]
  exact List.mem_map.mpr ⟨"2-4M", List.mem_filter.mpr ⟨h, by decide⟩, rfl⟩

/-- C7: when a flag column named `"Boy"` passes the value-one test and the
derived variant list contains `"2-4M"`, the produced tag list contains
`"Boy"` and the bracket tags of both the 0-3m and the 3-6m bracket, each at
most once. -/
theorem c7_boy_age_tags (cols : List String) (row : Row)
    (hb : "Boy" ∈ cols) (hone : isValueOne (row "Boy") = true)
    (hv : "2-4M" ∈ recordVariantsD cols row) :
    "Boy" ∈ recordTags cols row (recordVariantsD cols row)
    ∧ "Boy 0-3m" ∈ recordTags cols row (recordVariantsD cols row)
    ∧ "Boy 3-6m" ∈ recordTags cols row (recordVariantsD cols row)
    ∧ (recordTags cols row (recordVariantsD cols row)).count "Boy 0-3m" ≤ 1
    ∧ (recordTags cols row (recordVariantsD cols row)).count "Boy 3-6m" ≤ 1 := by
  have h8 : "Boy" ∈ cols.foldl (flagStep row) (baseTags cols row) :=
    flagFold_adds_boy row cols (baseTags cols row) "Boy" hb (by decide) hone
  have hBoy9 : "Boy" ∈ mergeNew (cols.foldl (flagStep row) (baseTags cols row))
      (getBoyAgeGroupTags (recordVariantsD cols row)) :=
    mem_mergeNew_left _ _ h8
  have hA9 : "Boy 0-3m" ∈ mergeNew (cols.foldl (flagStep row) (baseTags cols row))
      (getBoyAgeGroupTags (recordVariantsD cols row)) :=
    mem_mergeNew_right _ _ (boyAge_bracket1 _ hv)
  have hB9 : "Boy 3-6m" ∈ mergeNew (cols.foldl (flagStep row) (baseTags cols row))
      (getBoyAgeGroupTags (recordVariantsD cols row)) :=
    mem_mergeNew_right _ _ (boyAge_bracket2 _ hv)
  have hraw : "Boy" ∈ recordTagsRaw cols row (recordVariantsD cols row)
      ∧ "Boy 0-3m" ∈ recordTagsRaw cols row (recordVariantsD cols row)
      ∧ "Boy 3-6m" ∈ recordTagsRaw cols row (recordVariantsD cols row) := by
    simp only [recordTagsRaw, if_pos h8]
    split_ifs with hg
    · exact ⟨mem_mergeNew_left _ _ hBoy9, mem_mergeNew_left _ _ hA9, mem_mergeNew_left _ _ hB9⟩
    · exact ⟨hBoy9, hA9, hB9⟩
  have hnodup : (recordTags cols row (recordVariantsD cols row)).Nodup :=
    dedupFirst_nodup _
  have hcount := List.nodup_iff_count_le_one.mp hnodup
  exact ⟨mem_dedupFirst_of_mem _ hraw.1, mem_dedupFirst_of_mem _ hraw.2.1,
    mem_dedupFirst_of_mem _ hraw.2.2, hcount "Boy 0-3m", hcount "Boy 3-6m"⟩

/-- C7 witness: the concrete record has flag column `"Boy"` set to `"1"` and
variant `"2-4M"`. -/
theorem c7_boy_age_tags_witness :
    "Boy" ∈ wcolsA ∧ isValueOne (wrowA "Boy") = true
    ∧ "2-4M" ∈ recordVariantsD wcolsA wrowA
    ∧ "Boy" ∈ recordTags wcolsA wrowA (recordVariantsD wcolsA wrowA)
    ∧ "Boy 0-3m" ∈ recordTags wcolsA wrowA (recordVariantsD wcolsA wrowA)
    ∧ "Boy 3-6m" ∈ recordTags wcolsA wrowA (recordVariantsD wcolsA wrowA) :=
  ⟨by decide, by decide, by decide,
    (c7_boy_age_tags wcolsA wrowA (by decide) (by decide) (by decide)).1,
    (c7_boy_age_tags wcolsA wrowA (by decide) (by decide) (by decide)).2.1,
    (c7_boy_age_tags wcolsA wrowA (by decide) (by decide) (by decide)).2.2.1⟩

/-- C8: when no title role resolves from the header row, the selected title
column is exactly the specification's description: the first header among
whose first ten data-row values some value is non-empty and not a pure-digit
string; else the first header overall. -/
theorem c8_title_fallback (cols : List String) (df : List Row)
    (h : findColByNames cols titleNames = none) :
    resolveTitleCol cols df = titleFallbackSpec cols df := by
  simp only [resolveTitleCol, h]
  simp only [titleFallback, titleFallbackSpec]
  have hp : (fun c => !(titleSample df c).isEmpty)
      = (fun c => ((df.take 10).map (fun r => r c)).any
          (fun s => decide (s ≠ "") && !pureDigits s)) := by
    funext c
    rw [titleSample, filter_isEmpty_eq_not_any, Bool.not_not]
  rw [hp]

/-- C8 witness: on headers `Foo`, `Bar` with `Foo` all digits, the fallback
picks `Bar` and agrees with the specification's description. -/
theorem c8_title_fallback_witness :
    findColByNames wcols8 titleNames = none
    ∧ resolveTitleCol wcols8 wdf8 = titleFallbackSpec wcols8 wdf8 :=
  ⟨by decide, c8_title_fallback wcols8 wdf8 (by decide)⟩

/-- C9 counterexample: the error entry of a failing file is named
`ERROR_<name>.txt`, but its body is `Failed to process: <error>`, which does
not name the failing file — refuting the claim that the body names both the
failing file and the error. -/
theorem c9_body_counterexample :
    (processFiles wfiles9).getD 1 ("", "") = ("ERROR_bad.csv.txt", "Failed to process: boom")
    ∧ containsStr "Failed to process: boom" "bad.csv" = false := by
  decide

/-- C9 (amended): every file contributes exactly one archive entry; a file
whose processing fails contributes the entry named `ERROR_<original name>.txt`
whose body names the error (`Failed to process: <error>`), while the failing
filename appears in the entry name; and every other file's entry is the same
as it would be alone. -/
theorem c9_error_isolation (files : List (String × Except String String)) (i : ℕ)
    (name e : String) (hi : i < files.length)
    (hf : files.getD i ("", Except.ok "") = (name, Except.error e)) :
    (processFiles files).length = files.length
    ∧ (processFiles files).getD i ("", "")
        = ("ERROR_" ++ name ++ ".txt", "Failed to process: " ++ e)
    ∧ ∀ j, j < files.length →
        (processFiles files).getD j ("", "")
          = processOneFile (files.getD j ("", Except.ok "")) := by
  refine ⟨by rw [processFiles, List.length_map], ?_, fun j hj => processFiles_getD files j hj⟩
  rw [processFiles_getD files i hi, hf]
  simp [processOneFile]

/-- C9 witness: in the concrete batch the failing second file yields the
`ERROR_` entry while the first file's entry is untouched. -/
theorem c9_error_isolation_witness :
    1 < wfiles9.length
    ∧ wfiles9.getD 1 ("", Except.ok "") = ("bad.csv", Except.error "boom")
    ∧ (processFiles wfiles9).getD 1 ("", "")
        = ("ERROR_" ++ "bad.csv" ++ ".txt", "Failed to process: " ++ "boom") :=
  ⟨by decide, by decide,
    (c9_error_isolation wfiles9 1 "bad.csv" "boom" (by decide) (by decide)).2.1⟩

/-- C10: when a size-chart column resolves and its trimmed cell is non-empty,
not `"nan"` and not already among the image-column URLs, the cell is appended
to the assembled image list after the image-column URLs (so it counts toward
the image count); when no image column yielded a URL it becomes the primary
product image of the first row, and otherwise it appears as the last trailing
image row with position `imageCount`. -/
theorem c10_sizechart (cols : List String) (titleCol : String) (row : Row) (scc : String)
    (hscc : findColByNames cols sizeChartNames = some scc)
    (hu1 : jsTrim (row scc) ≠ "") (hu2 : lowerStr (jsTrim (row scc)) ≠ "nan")
    (hu3 : jsTrim (row scc) ∉ recordImageURLs cols row)
    (ht1 : jsTrim (row titleCol) ≠ "") (ht2 : lowerStr (jsTrim (row titleCol)) ≠ "nan") :
    recordImages cols row = recordImageURLs cols row ++ [jsTrim (row scc)]
    ∧ (recordImageURLs cols row = [] →
        recordPrimaryImage cols row = jsTrim (row scc)
        ∧ ((recordRows cols titleCol row).getD 0 blankRow) "Product image URL"
            = jsTrim (row scc))
    ∧ (recordImageURLs cols row ≠ [] →
        ((imageRowsPart cols titleCol row).getD ((imageRowsPart cols titleCol row).length - 1)
            blankRow) "Product image URL" = jsTrim (row scc)
        ∧ ((imageRowsPart cols titleCol row).getD ((imageRowsPart cols titleCol row).length - 1)
            blankRow) "Image position" = toString ((recordImages cols row).length)) := by
  have himg : recordImages cols row = recordImageURLs cols row ++ [jsTrim (row scc)] := by
    simp only [recordImages, hscc]
    rw [if_pos ⟨hu1, hu2, hu3⟩]
  have hvpos : 0 < (recordVariantsD cols row).length :=
    List.length_pos.mpr (recordVariantsD_ne_nil cols row)
  refine ⟨himg, ?_, ?_⟩
  · intro hemp
    have h1 : recordImages cols row = [jsTrim (row scc)] := by
      rw [himg, hemp]
      rfl
    have hprim : recordPrimaryImage cols row = jsTrim (row scc) := by
      rw [recordPrimaryImage, h1]
      rfl
    refine ⟨hprim, ?_⟩
    simp only [recordRows]
    rw [if_neg (by push_neg; exact ⟨ht1, ht2⟩)]
    rw [getD_append_left _ _ _ 0 (by rw [variantRowsPart_length]; exact hvpos)]
    rw [variantRowsPart_getD cols titleCol row 0 hvpos, mkVariantRow_imageURL]
    rw [if_pos ⟨rfl, by rw [hprim]; exact hu1⟩, hprim]
  · intro hne
    obtain ⟨w, ws, hw⟩ : ∃ w ws, recordImageURLs cols row = w :: ws := by
      rcases hu : recordImageURLs cols row with _ | ⟨w, ws⟩
      · exact absurd hu hne
      · exact ⟨w, ws, rfl⟩
    have hL : (recordImages cols row).drop 1 = ws ++ [jsTrim (row scc)] := by
      rw [himg, hw]
      rfl
    have hlen : (imageRowsPart cols titleCol row).length = ws.length + 1 := by
      rw [imageRowsPart, imageTailRows_length, hL]
      simp
    have hj : (imageRowsPart cols titleCol row).length - 1 = ws.length := by
      rw [hlen]
      omega
    have hjlt : ws.length < ((recordImages cols row).drop 1).length := by
      rw [hL]
      simp
    have hgetD : ((recordImages cols row).drop 1).getD ws.length "" = jsTrim (row scc) := by
      rw [hL, getD_append_right _ _ _ _ (Nat.le_refl _), Nat.sub_self]
      rfl
    have himgrow : (imageRowsPart cols titleCol row).getD
        ((imageRowsPart cols titleCol row).length - 1) blankRow
        = imageRowOut (slugify (jsTrim (row titleCol))) (jsTrim (row scc)) (2 + ws.length) := by
      rw [hj, imageRowsPart, imageTailRows_getD _ _ _ _ hjlt, hgetD]
    have hcnt : 2 + ws.length = (recordImages cols row).length := by
      rw [himg, hw]
      simp
      omega
    rw [himgrow, hcnt]
    exact ⟨rfl, rfl⟩

/-- C10 witness: in the concrete record the size-chart cell `"sc"` is appended
after the two image URLs and appears as the last trailing image row with
position 3. -/
theorem c10_sizechart_witness :
    findColByNames wcolsA sizeChartNames = some "Size Chart"
    ∧ recordImageURLs wcolsA wrowA ≠ []
    ∧ recordImages wcolsA wrowA = recordImageURLs wcolsA wrowA ++ [jsTrim (wrowA "Size Chart")] :=
  ⟨by decide, by decide,
    (c10_sizechart wcolsA "Title" wrowA "Size Chart" (by decide) (by decide) (by decide)
      (by decide) (by decide) (by decide)).1⟩
